import Mathlib

/-!
Shallow embedding of the `OsmPicker` widget from `src/osmpicker.js` of
dekvidet/osm-picker, together with proofs about its state-synchronization
logic (parsing the input element's text, formatting coordinates back into
it, and the marker/view state machine).

Modelling decisions:

* JS numbers are modelled as rationals (`ℚ`).  Finite doubles are a subset
  of the rationals, and every behaviour the claims mention (parsing decimal
  text, formatting a number back to decimal text) is exact in this regime,
  which is why the spec's "within floating-point tolerance" degenerates to
  equality here.
* `Number(string)` coercion (used by the map provider's coordinate
  constructor on the split components) is modelled by `parseJsNum` for
  plain decimal notation: optional sign, integer digits, optional fraction;
  the empty string coerces to `0`; anything else is NaN.  NaN is modelled
  as `Option.none` in a coordinate component.
* `String(number)` (used when the widget writes a coordinate into the
  input element) is modelled by `fmtRat`, the exact decimal expansion of a
  decimal-representable rational with no trailing fraction zeros and no
  decimal point for integers — matching JS output in the plain-decimal
  regime (`String(10.0) = "10"`, `String(1.5) = "1.5"`).
* The input element's text is a `List Char`; `String.prototype.split(',')`
  is `splitOnComma`.
* The map provider (Leaflet) is an external collaborator whose source is
  not part of the repository; its operations are modelled from the spec's
  collaborator interface (§6) where needed, see `lLatLng` and `setMarker`.
-/

-- Batteries seals the `Rat` arithmetic operations; re-open them so that
-- concrete states evaluate by `decide`.
attribute [local semireducible] Rat.add Rat.mul Rat.inv Rat.sub Rat.ofScientific

/-- The character for a decimal digit value (`0 ↦ '0'`, …, `9 ↦ '9'`). -/
def digitChar : Nat → Char
  | 0 => '0'
  | 1 => '1'
  | 2 => '2'
  | 3 => '3'
  | 4 => '4'
  | 5 => '5'
  | 6 => '6'
  | 7 => '7'
  | 8 => '8'
  | 9 => '9'
  | _ => '*'

/-- The decimal value of a digit character. -/
def digitVal (c : Char) : Nat := c.toNat - 48

/-- Positional (base-10) value of a big-endian digit string. -/
def charsVal (l : List Char) : Nat := Nat.ofDigits 10 ((l.map digitVal).reverse)

/-- Little-endian base-10 digits of a natural number, computed with explicit
fuel so the kernel can evaluate it. -/
def digitsF : Nat → Nat → List Nat
  | 0, _ => []
  | fuel + 1, n => if n = 0 then [] else n % 10 :: digitsF fuel (n / 10)

/-- Little-endian base-10 digits of `n` (equals `Nat.digits 10 n`). -/
def natDigits (n : Nat) : List Nat := digitsF n n

/-- Decimal representation of a natural number, as JS `String(n)` writes it. -/
def fmtNat (n : Nat) : List Char :=
  if n = 0 then ['0'] else ((natDigits n).map digitChar).reverse

/-- The `e` fraction digits after the decimal point for fraction numerator
`f` (with `f < 10 ^ e`), zero-padded at the front as JS does. -/
def fracDigits (f e : Nat) : List Char :=
  ((natDigits f ++ List.replicate (e - (natDigits f).length) 0).map digitChar).reverse

/-- Decimal representation of the non-negative value `m / 10 ^ e`. -/
def fmtPos (m e : Nat) : List Char :=
  if e = 0 then fmtNat m
  else fmtNat (m / 10 ^ e) ++ '.' :: fracDigits (m % 10 ^ e) e

/-- Multiplicity of `p` in `n`, computed with explicit fuel. -/
def countFactorF : Nat → Nat → Nat → Nat
  | 0, _, _ => 0
  | fuel + 1, p, n =>
      if 2 ≤ p ∧ p ∣ n ∧ n ≠ 0 then countFactorF fuel p (n / p) + 1 else 0

/-- Multiplicity of the prime `p` in `n`. -/
def countFactor (p n : Nat) : Nat := countFactorF n p n

/-- The number of decimal fraction digits needed for `q`: for a
decimal-representable `q` with denominator `2^a * 5^b` this is `max a b`. -/
def decExp (q : ℚ) : Nat := max (countFactor 2 q.den) (countFactor 5 q.den)

/-- The scaled integer mantissa of `q`: `|q| * 10 ^ decExp q` as a natural
number when `q` is decimal-representable. -/
def mantissa (q : ℚ) : Nat := q.num.natAbs * (10 ^ decExp q / q.den)

/-- `q` has a finite decimal expansion (its denominator divides a power of
ten).  Finite binary doubles all satisfy this. -/
def IsDec (q : ℚ) : Prop := q.den ∣ 10 ^ decExp q

instance decIsDec (q : ℚ) : Decidable (IsDec q) :=
  inferInstanceAs (Decidable (q.den ∣ 10 ^ decExp q))

/-- Decimal representation of a rational, as JS `String(number)` writes a
decimal-representable number in the plain-decimal regime. -/
def fmtRat (q : ℚ) : List Char :=
  (if q < 0 then ['-'] else []) ++ fmtPos (mantissa q) (decExp q)

/-- JS numeric coercion of unsigned plain-decimal text:
digits, optionally followed by `.` and fraction digits (at least one digit
overall); `none` models NaN. -/
def parseUnsignedAux (ip rest : List Char) : Option ℚ :=
  match rest with
  | [] => if ip = [] then none else some ((charsVal ip : ℚ))
  | c :: frac =>
      if c = '.' ∧ frac.all Char.isDigit = true ∧ (ip ≠ [] ∨ frac ≠ []) then
        some ((charsVal ip : ℚ) + (charsVal frac : ℚ) / 10 ^ frac.length)
      else none

def parseUnsigned (l : List Char) : Option ℚ :=
  parseUnsignedAux (l.takeWhile Char.isDigit) (l.dropWhile Char.isDigit)

/-- JS `Number(string)` coercion for plain decimal notation: the empty
string is `0`, an optional leading sign is honoured, and anything that is
not decimal-numeric is NaN (`none`). -/
def parseJsNum (l : List Char) : Option ℚ :=
  match l with
  | [] => some 0
  | c :: rest =>
      if c = '-' then (parseUnsigned rest).map (fun q => -q)
      else if c = '+' then parseUnsigned rest
      else parseUnsigned (c :: rest)

/-- JS `text.split(',')`. -/
def splitOnComma : List Char → List (List Char)
  | [] => [[]]
  | c :: rest =>
      match splitOnComma rest with
      | [] => [[]]
      | h :: t => if c = ',' then [] :: h :: t else (c :: h) :: t

/-- A map-provider coordinate; a component is `none` when it is NaN
(degenerate, produced by a failed numeric parse). -/
structure LatLng where
  lat : Option ℚ
  lng : Option ℚ
deriving DecidableEq

/-- The library-supplied fallback view centre `L.latLng(47.4953, 19.0645)`
from `_initialize`. -/
def defaultLatLng : LatLng := ⟨some (47.4953 : ℚ), some (19.0645 : ℚ)⟩

/-- A marker layer owned by the map: an identity (layer handle) and the
coordinate it is displayed at. -/
structure Marker where
  id : Nat
  pos : LatLng
deriving DecidableEq

/-- The observable per-instance state of the picker: the input element's
text, the marker layers the instance has put on the map, the `_marker`
variable, the map view, and a counter for fresh layer identities. -/
structure PickerState where
  inputValue : List Char
  layers : List Marker
  marker : Option Marker
  viewCenter : Option LatLng
  viewZoom : Option ℚ
  nextId : Nat
deriving DecidableEq

/-- The claim-relevant constructor settings: the input element's starting
text and the `defaultView` options.  For `defaultView.latLng` the outer
`Option` is JS `undefined` (absent) and the inner `none` is a supplied
falsy value such as `null`; for `defaultView.zoom` `none` is absent. -/
structure Settings where
  initialValue : List Char
  defaultViewLatLng : Option (Option LatLng)
  defaultViewZoom : Option ℚ
deriving DecidableEq

/-- JS `settings.defaultView.latLng || fallback`: an absent or falsy
setting yields the fallback; a `LatLng` object is always truthy. -/
def jsOrLatLng : Option (Option LatLng) → LatLng → LatLng
  | some (some l), _ => l
  | _, d => d

/-- JS `settings.defaultView.zoom || fallback`: absent (`undefined`) and
the falsy number `0` both yield the fallback. -/
def jsOrZoom : Option ℚ → ℚ → ℚ
  | none, d => d
  | some z, d => if z = 0 then d else z

/-- A coordinate argument to `setInputFromLatLng`, in either accepted
shape: an ordered pair (array) of numbers, or an object with `lat`/`lng`
fields. -/
inductive LatLngArg where
  | arr (lat lng : ℚ)
  | obj (lat lng : ℚ)
deriving DecidableEq

/-- The coordinate denoted by either argument shape. -/
def argToLatLng : LatLngArg → LatLng
  | .arr a b => ⟨some a, some b⟩
  | .obj a b => ⟨some a, some b⟩

/-- The text `setInputFromLatLng` writes: `latLng.join(',')` for the array
shape and `latLng.lat + ',' + latLng.lng` for the object shape; both
stringify the two numbers around a comma. -/
def fmtArg : LatLngArg → List Char
  | .arr a b => fmtRat a ++ ',' :: fmtRat b
  | .obj a b => fmtRat a ++ ',' :: fmtRat b

/-- Modelled from the spec: the map provider's coordinate constructor
(`L.latLng.apply(this, components)`, §6 "construct a coordinate value from
two numeric components").  Two or more components give a coordinate from
the first two, each coerced numerically with failure producing a
degenerate NaN component (§4: "the resulting coordinate is degenerate
(not-a-number) rather than an explicit parse error"); a single component
does not form a coordinate. -/
def lLatLng : List (List Char) → Option LatLng
  | a :: b :: _ => some ⟨parseJsNum a, parseJsNum b⟩
  | _ => none

/-- `_getLatLngFromInput`: empty text is `null`, otherwise the text is
split on `','` and handed to the coordinate constructor. -/
def getLatLngFromInput (s : PickerState) : Option LatLng :=
  if s.inputValue ≠ [] then lLatLng (splitOnComma s.inputValue) else none

/-- The removal half of `_setMarker`: `if (_marker !== null)
_map.removeLayer(_marker)`. -/
def removeOwnedMarker (s : PickerState) : PickerState :=
  match s.marker with
  | some m => { s with layers := s.layers.filter (fun x => x.id != m.id) }
  | none => s

/-- `_setMarker`: remove the currently owned marker layer, then
`_marker = L.marker(latLng).addTo(_map)`.  When called with `null` (the
change listener does this on unparseable input) the removal still runs but
no new marker is displayed: `L.marker(null).addTo(map)` fails in the map
provider before the assignment, so `_marker` keeps its stale value — the
spec's account ("if parsing fails, this removes any existing marker"). -/
def setMarker (s : PickerState) (latLng : Option LatLng) : PickerState :=
  let s1 := removeOwnedMarker s
  match latLng with
  | some c =>
      { s1 with
        layers := s1.layers ++ [⟨s1.nextId, c⟩]
        marker := some ⟨s1.nextId, c⟩
        nextId := s1.nextId + 1 }
  | none => s1

/-- The map click listener registered in `_initialize`: write
`e.latlng.lat + ',' + e.latlng.lng` into the input element, then set the
marker.  The view is not touched. -/
def clickHandler (s : PickerState) (lat lng : ℚ) : PickerState :=
  setMarker { s with inputValue := fmtRat lat ++ ',' :: fmtRat lng }
    (some ⟨some lat, some lng⟩)

/-- The input `change` listener registered in `_initialize`:
`_setMarker(_getLatLngFromInput())`, unconditionally. -/
def changeHandler (s : PickerState) : PickerState :=
  setMarker s (getLatLngFromInput s)

/-- `setInputFromLatLng`: write the formatted coordinate into the input
element, `_map.setView(latLng)` (no zoom argument, so zoom is kept), then
set the marker. -/
def setInputFromLatLng (s : PickerState) (arg : LatLngArg) : PickerState :=
  let s1 := { s with inputValue := fmtArg arg }
  let s2 := { s1 with viewCenter := some (argToLatLng arg) }
  setMarker s2 (some (argToLatLng arg))

/-- A freshly created map bound to the input element: no marker layers, no
view set yet. -/
def emptyState (iv : List Char) : PickerState :=
  { inputValue := iv
    layers := []
    marker := none
    viewCenter := none
    viewZoom := none
    nextId := 0 }

/-- The state after `_map.setView(inputLatLng || settings.defaultView.latLng,
settings.defaultView.zoom)` during construction: the parsed starting text
wins over the default centre (`||` on a coordinate object). -/
def initState (iv : List Char) (dvLatLng : LatLng) (dvZoom : ℚ) : PickerState :=
  { emptyState iv with
    viewCenter := some ((getLatLngFromInput (emptyState iv)).getD dvLatLng)
    viewZoom := some dvZoom }

/-- The tail of `_initialize` after the settings are normalized: parse the
input's starting text, set the view, and `if (inputLatLng)
_setMarker(inputLatLng)`. -/
def initResolved (iv : List Char) (dvLatLng : LatLng) (dvZoom : ℚ) : PickerState :=
  match getLatLngFromInput (emptyState iv) with
  | some c => setMarker (initState iv dvLatLng dvZoom) (some c)
  | none => initState iv dvLatLng dvZoom

/-- `_initialize`, run at construction: normalize the `defaultView`
settings with `||` fallbacks, then set up the map, view and marker. -/
def initPicker (cfg : Settings) : PickerState :=
  initResolved cfg.initialValue
    (jsOrLatLng cfg.defaultViewLatLng defaultLatLng)
    (jsOrZoom cfg.defaultViewZoom 14)

/-- An external stimulus after construction: a map click carrying a
coordinate, a user edit of the input text followed by its native `change`
notification, or a `setInputFromLatLng` call. -/
inductive Event where
  | click (lat lng : ℚ)
  | change (newText : List Char)
  | setCoord (arg : LatLngArg)
deriving DecidableEq

/-- Dispatch one event to the picker's registered handlers. -/
def stepEvent (s : PickerState) : Event → PickerState
  | .click a b => clickHandler s a b
  | .change t => changeHandler { s with inputValue := t }
  | .setCoord arg => setInputFromLatLng s arg

/-- The state after construction with `cfg` followed by a sequence of
events. -/
def run (cfg : Settings) (evs : List Event) : PickerState :=
  evs.foldl stepEvent (initPicker cfg)

/-- Marker-ownership invariant: either no marker layer is displayed, or
exactly one is, and it is the one recorded in `_marker`. -/
def MarkerInv (s : PickerState) : Prop :=
  s.layers = [] ∨ ∃ m, s.marker = some m ∧ s.layers = [m]

/-! ## Number-model lemmas -/

theorem digitsF_eq (fuel n : Nat) (h : n ≤ fuel) : digitsF fuel n = Nat.digits 10 n := by
  induction fuel generalizing n with
  | zero =>
      have hn : n = 0 := Nat.le_zero.mp h
      subst hn
      simp [digitsF]
  | succ fuel ih =>
      by_cases hn : n = 0
      · subst hn
        simp [digitsF]
      · have hlt : n / 10 ≤ fuel := by
          have : n / 10 < n := Nat.div_lt_self (Nat.pos_of_ne_zero hn) (by norm_num)
          omega
        rw [digitsF, if_neg hn, ih _ hlt]
        exact (Nat.digits_def' (by norm_num) (Nat.pos_of_ne_zero hn)).symm

theorem natDigits_eq (n : Nat) : natDigits n = Nat.digits 10 n :=
  digitsF_eq n n le_rfl

theorem digitVal_digitChar {d : Nat} (h : d < 10) : digitVal (digitChar d) = d := by
  interval_cases d <;> rfl

theorem isDigit_digitChar {d : Nat} (h : d < 10) : (digitChar d).isDigit = true := by
  interval_cases d <;> rfl

theorem charsVal_digitChar_list (D : List Nat) (hD : ∀ d ∈ D, d < 10) :
    charsVal ((D.map digitChar).reverse) = Nat.ofDigits 10 D := by
  unfold charsVal
  rw [List.map_reverse, List.reverse_reverse, List.map_map]
  have : D.map (digitVal ∘ digitChar) = D.map id :=
    List.map_congr_left fun d hd => digitVal_digitChar (hD d hd)
  rw [this, List.map_id]

theorem charsVal_fmtNat (n : Nat) : charsVal (fmtNat n) = n := by
  by_cases hn : n = 0
  · subst hn
    decide
  · rw [fmtNat, if_neg hn, natDigits_eq,
      charsVal_digitChar_list _ (fun d hd => Nat.digits_lt_base (by norm_num) hd)]
    exact Nat.ofDigits_digits 10 n

theorem fmtNat_all_digits (n : Nat) : ∀ c ∈ fmtNat n, c.isDigit = true := by
  intro c hc
  by_cases hn : n = 0
  · subst hn
    simp [fmtNat] at hc
    subst hc
    decide
  · rw [fmtNat, if_neg hn, List.mem_reverse, List.mem_map] at hc
    obtain ⟨d, hd, rfl⟩ := hc
    rw [natDigits_eq] at hd
    exact isDigit_digitChar (Nat.digits_lt_base (by norm_num) hd)

theorem fmtNat_ne_nil (n : Nat) : fmtNat n ≠ [] := by
  by_cases hn : n = 0
  · subst hn
    simp [fmtNat]
  · rw [fmtNat, if_neg hn]
    simp only [ne_eq, List.reverse_eq_nil_iff, List.map_eq_nil_iff, natDigits_eq]
    exact Nat.digits_ne_nil_iff_ne_zero.mpr hn

theorem ofDigits_replicate_zero (k : Nat) : Nat.ofDigits 10 (List.replicate k 0) = 0 := by
  induction k with
  | zero => rfl
  | succ k ih => rw [List.replicate_succ, Nat.ofDigits_cons, ih]

theorem digitsLen_le {f e : Nat} (h : f < 10 ^ e) : (Nat.digits 10 f).length ≤ e := by
  by_contra hcon
  push_neg at hcon
  have hf : f ≠ 0 := by
    intro h0
    subst h0
    simp at hcon
  have h2 : 10 ^ (Nat.digits 10 f).length ≤ 10 * f :=
    Nat.base_pow_length_digits_le 10 f (by norm_num) hf
  have h3 : 10 ^ (e + 1) ≤ 10 ^ (Nat.digits 10 f).length :=
    Nat.pow_le_pow_right (by norm_num) hcon
  rw [pow_succ] at h3
  have : 10 ^ e ≤ f := by nlinarith
  omega

theorem fracDigits_elems_lt (f e : Nat) :
    ∀ d ∈ natDigits f ++ List.replicate (e - (natDigits f).length) 0, d < 10 := by
  intro d hd
  rw [List.mem_append] at hd
  rcases hd with hd | hd
  · rw [natDigits_eq] at hd
    exact Nat.digits_lt_base (by norm_num) hd
  · rw [List.eq_of_mem_replicate hd]
    norm_num

theorem charsVal_fracDigits (f e : Nat) :
    charsVal (fracDigits f e) = f := by
  rw [fracDigits, charsVal_digitChar_list _ (fracDigits_elems_lt f e),
    Nat.ofDigits_append, natDigits_eq, Nat.ofDigits_digits, ofDigits_replicate_zero]
  ring

theorem fracDigits_length {f e : Nat} (h : f < 10 ^ e) : (fracDigits f e).length = e := by
  have hlen : (natDigits f).length ≤ e := by
    rw [natDigits_eq]
    exact digitsLen_le h
  simp [fracDigits, List.length_append]
  omega

theorem fracDigits_all_digits (f e : Nat) : ∀ c ∈ fracDigits f e, c.isDigit = true := by
  intro c hc
  rw [fracDigits, List.mem_reverse, List.mem_map] at hc
  obtain ⟨d, hd, rfl⟩ := hc
  exact isDigit_digitChar (fracDigits_elems_lt f e d hd)

theorem takeWhile_all {p : Char → Bool} {a : List Char} (ha : ∀ c ∈ a, p c = true) :
    a.takeWhile p = a ∧ a.dropWhile p = [] :=
  ⟨List.takeWhile_eq_self_iff.mpr ha, List.dropWhile_eq_nil_iff.mpr ha⟩

theorem takeWhile_append_stop {p : Char → Bool} {a : List Char} {x : Char} {b : List Char}
    (ha : ∀ c ∈ a, p c = true) (hx : p x = false) :
    (a ++ x :: b).takeWhile p = a ∧ (a ++ x :: b).dropWhile p = x :: b := by
  induction a with
  | nil => simp [List.takeWhile_cons, List.dropWhile_cons, hx]
  | cons c a ih =>
      have hc : p c = true := ha c (List.mem_cons_self _ _)
      have ih' := ih fun d hd => ha d (List.mem_cons_of_mem _ hd)
      simp [List.takeWhile_cons, List.dropWhile_cons, hc, ih'.1, ih'.2]

theorem parseUnsigned_fmtPos (m e : Nat) :
    parseUnsigned (fmtPos m e) = some ((m : ℚ) / 10 ^ e) := by
  by_cases he : e = 0
  · subst he
    rw [fmtPos, if_pos rfl]
    have hall := takeWhile_all (fmtNat_all_digits m)
    rw [parseUnsigned, hall.1, hall.2]
    simp only [parseUnsignedAux]
    rw [if_neg (fmtNat_ne_nil m), charsVal_fmtNat]
    norm_num
  · rw [fmtPos, if_neg he]
    have hsplit := takeWhile_append_stop (b := fracDigits (m % 10 ^ e) e)
      (fmtNat_all_digits (m / 10 ^ e)) (show Char.isDigit '.' = false by decide)
    rw [parseUnsigned, hsplit.1, hsplit.2]
    simp only [parseUnsignedAux]
    rw [if_pos ⟨trivial, List.all_eq_true.mpr (fracDigits_all_digits (m % 10 ^ e) e),
        Or.inl (fmtNat_ne_nil (m / 10 ^ e))⟩,
      charsVal_fmtNat, charsVal_fracDigits,
      fracDigits_length (Nat.mod_lt m (Nat.pos_pow_of_pos e (by norm_num)))]
    congr 1
    have h10 : ((10 : ℚ)) ^ e ≠ 0 := pow_ne_zero _ (by norm_num)
    have hdm := Nat.div_add_mod m (10 ^ e)
    have hcast : ((10 : ℚ)) ^ e * ((m / 10 ^ e : Nat) : ℚ) + ((m % 10 ^ e : Nat) : ℚ)
        = (m : ℚ) := by
      exact_mod_cast hdm
    field_simp
    linarith [hcast]

theorem mantissa_spec {q : ℚ} (h : IsDec q) :
    (mantissa q : ℚ) = |q| * 10 ^ decExp q := by
  have hden : (q.den : ℚ) ≠ 0 := by
    exact_mod_cast q.den_nz
  have habs : |q| = |(q.num : ℚ)| / (q.den : ℚ) := by
    conv_lhs => rw [← Rat.num_div_den q]
    rw [abs_div, abs_of_nonneg (by positivity : (0 : ℚ) ≤ (q.den : ℚ))]
  rw [mantissa, Nat.cast_mul, Nat.cast_div h hden, Int.cast_natAbs, habs]
  push_cast
  field_simp

theorem fmtPos_head_digit (m e : Nat) :
    ∃ c t, fmtPos m e = c :: t ∧ c.isDigit = true := by
  by_cases he : e = 0
  · subst he
    obtain ⟨c, t, hct⟩ := List.exists_cons_of_ne_nil (fmtNat_ne_nil m)
    refine ⟨c, t, by rw [fmtPos, if_pos rfl, hct], ?_⟩
    exact fmtNat_all_digits m c (hct ▸ List.mem_cons_self c t)
  · obtain ⟨c, t, hct⟩ := List.exists_cons_of_ne_nil (fmtNat_ne_nil (m / 10 ^ e))
    refine ⟨c, t ++ '.' :: fracDigits (m % 10 ^ e) e,
      by rw [fmtPos, if_neg he, hct, List.cons_append], ?_⟩
    exact fmtNat_all_digits (m / 10 ^ e) c (hct ▸ List.mem_cons_self c t)

theorem parseJsNum_fmtPos (m e : Nat) :
    parseJsNum (fmtPos m e) = some ((m : ℚ) / 10 ^ e) := by
  obtain ⟨c, t, hct, hd⟩ := fmtPos_head_digit m e
  have hminus : ¬(c = '-') := fun hcc => by
    rw [hcc] at hd
    exact absurd hd (by decide)
  have hplus : ¬(c = '+') := fun hcc => by
    rw [hcc] at hd
    exact absurd hd (by decide)
  rw [hct, parseJsNum, if_neg hminus, if_neg hplus, ← hct, parseUnsigned_fmtPos]

theorem parseJsNum_fmtRat {q : ℚ} (h : IsDec q) : parseJsNum (fmtRat q) = some q := by
  have h10 : ((10 : ℚ)) ^ decExp q ≠ 0 := pow_ne_zero _ (by norm_num)
  by_cases hq : q < 0
  · rw [fmtRat, if_pos hq, List.cons_append, List.nil_append, parseJsNum, if_pos rfl,
      parseUnsigned_fmtPos, Option.map_some', mantissa_spec h, abs_of_neg hq]
    congr 1
    field_simp
  · rw [fmtRat, if_neg hq, List.nil_append, parseJsNum_fmtPos, mantissa_spec h,
      abs_of_nonneg (not_lt.mp hq)]
    congr 1
    field_simp

theorem comma_not_mem_fmtRat (q : ℚ) : ',' ∉ fmtRat q := by
  intro hmem
  rw [fmtRat] at hmem
  rcases List.mem_append.mp hmem with hs | hp
  · by_cases hq : q < 0
    · rw [if_pos hq] at hs
      simp at hs
    · rw [if_neg hq] at hs
      simp at hs
  · rw [fmtPos] at hp
    by_cases he : decExp q = 0
    · rw [if_pos he] at hp
      exact absurd (fmtNat_all_digits _ _ hp) (by decide)
    · rw [if_neg he] at hp
      rcases List.mem_append.mp hp with h1 | h2
      · exact absurd (fmtNat_all_digits _ _ h1) (by decide)
      · rcases List.mem_cons.mp h2 with h3 | h4
        · exact absurd h3 (by decide)
        · exact absurd (fracDigits_all_digits _ _ _ h4) (by decide)

theorem fmtRat_ne_nil (q : ℚ) : fmtRat q ≠ [] := by
  rw [fmtRat]
  intro hnil
  rw [List.append_eq_nil] at hnil
  have h2 := hnil.2
  rw [fmtPos] at h2
  by_cases he : decExp q = 0
  · rw [if_pos he] at h2
    exact fmtNat_ne_nil _ h2
  · rw [if_neg he] at h2
    simp [List.append_eq_nil] at h2

theorem splitOnComma_ne_nil (l : List Char) : splitOnComma l ≠ [] := by
  induction l with
  | nil => simp [splitOnComma]
  | cons c rest ih =>
      cases hsp : splitOnComma rest with
      | nil => exact absurd hsp ih
      | cons h t =>
          rw [splitOnComma, hsp]
          by_cases hc : c = ',' <;> simp [hc]

theorem splitOnComma_no_comma {l : List Char} (h : ',' ∉ l) : splitOnComma l = [l] := by
  induction l with
  | nil => rfl
  | cons c rest ih =>
      have hc : ¬(c = ',') := fun hcc => h (by rw [hcc]; exact List.mem_cons_self _ _)
      have hrest : ',' ∉ rest := fun hm => h (List.mem_cons_of_mem _ hm)
      rw [splitOnComma, ih hrest]
      simp [hc]

theorem splitOnComma_append {a b : List Char} (ha : ',' ∉ a) (hb : ',' ∉ b) :
    splitOnComma (a ++ ',' :: b) = [a, b] := by
  induction a with
  | nil =>
      rw [List.nil_append, splitOnComma, splitOnComma_no_comma hb]
      simp
  | cons c a ih =>
      have hc : ¬(c = ',') := fun hcc => ha (by rw [hcc]; exact List.mem_cons_self _ _)
      have ha' : ',' ∉ a := fun hm => ha (List.mem_cons_of_mem _ hm)
      rw [List.cons_append, splitOnComma, ih ha']
      simp [hc]

/-! ## State-machine lemmas -/

theorem removeOwned_inputValue (s : PickerState) :
    (removeOwnedMarker s).inputValue = s.inputValue := by
  unfold removeOwnedMarker
  cases h : s.marker <;> simp

theorem removeOwned_viewCenter (s : PickerState) :
    (removeOwnedMarker s).viewCenter = s.viewCenter := by
  unfold removeOwnedMarker
  cases h : s.marker <;> simp

theorem removeOwned_viewZoom (s : PickerState) :
    (removeOwnedMarker s).viewZoom = s.viewZoom := by
  unfold removeOwnedMarker
  cases h : s.marker <;> simp

theorem removeOwned_nextId (s : PickerState) :
    (removeOwnedMarker s).nextId = s.nextId := by
  unfold removeOwnedMarker
  cases h : s.marker <;> simp

theorem removeOwned_layers {s : PickerState} (h : MarkerInv s) :
    (removeOwnedMarker s).layers = [] := by
  rcases h with h | ⟨m, hm, hl⟩
  · unfold removeOwnedMarker
    cases hmk : s.marker <;> simp [hmk, h]
  · unfold removeOwnedMarker
    rw [hm]
    simp [hl]

theorem setMarker_none (s : PickerState) : setMarker s none = removeOwnedMarker s := rfl

theorem setMarker_some_def (s : PickerState) (c : LatLng) :
    setMarker s (some c) =
      { removeOwnedMarker s with
        layers := (removeOwnedMarker s).layers ++ [⟨(removeOwnedMarker s).nextId, c⟩]
        marker := some ⟨(removeOwnedMarker s).nextId, c⟩
        nextId := (removeOwnedMarker s).nextId + 1 } := rfl

theorem setMarker_some_layers {s : PickerState} (h : MarkerInv s) (c : LatLng) :
    (setMarker s (some c)).layers = [⟨s.nextId, c⟩] := by
  simp [setMarker_some_def, removeOwned_layers h, removeOwned_nextId]

theorem setMarker_some_inputValue (s : PickerState) (c : LatLng) :
    (setMarker s (some c)).inputValue = s.inputValue := by
  simp [setMarker_some_def, removeOwned_inputValue]

theorem setMarker_some_viewCenter (s : PickerState) (c : LatLng) :
    (setMarker s (some c)).viewCenter = s.viewCenter := by
  simp [setMarker_some_def, removeOwned_viewCenter]

theorem setMarker_some_viewZoom (s : PickerState) (c : LatLng) :
    (setMarker s (some c)).viewZoom = s.viewZoom := by
  simp [setMarker_some_def, removeOwned_viewZoom]

theorem setMarker_some_marker (s : PickerState) (c : LatLng) :
    (setMarker s (some c)).marker = some ⟨s.nextId, c⟩ := by
  simp [setMarker_some_def, removeOwned_nextId]

theorem setMarker_some_nextId (s : PickerState) (c : LatLng) :
    (setMarker s (some c)).nextId = s.nextId + 1 := by
  simp [setMarker_some_def, removeOwned_nextId]

theorem markerInv_congr {s t : PickerState} (h : MarkerInv s)
    (hl : t.layers = s.layers) (hm : t.marker = s.marker) : MarkerInv t := by
  unfold MarkerInv at h ⊢
  rw [hl, hm]
  exact h

theorem markerInv_setMarker {s : PickerState} (h : MarkerInv s) (ll : Option LatLng) :
    MarkerInv (setMarker s ll) := by
  cases ll with
  | none =>
      rw [setMarker_none]
      exact Or.inl (removeOwned_layers h)
  | some c =>
      exact Or.inr ⟨⟨s.nextId, c⟩, setMarker_some_marker s c, setMarker_some_layers h c⟩

theorem markerInv_initResolved (iv : List Char) (dv : LatLng) (z : ℚ) :
    MarkerInv (initResolved iv dv z) := by
  unfold initResolved
  cases h : getLatLngFromInput (emptyState iv) with
  | none => exact Or.inl rfl
  | some c => exact markerInv_setMarker (Or.inl rfl) _

theorem markerInv_initPicker (cfg : Settings) : MarkerInv (initPicker cfg) :=
  markerInv_initResolved _ _ _

theorem markerInv_stepEvent {s : PickerState} (h : MarkerInv s) (e : Event) :
    MarkerInv (stepEvent s e) := by
  cases e with
  | click a b =>
      show MarkerInv (setMarker { s with inputValue := fmtRat a ++ ',' :: fmtRat b }
        (some ⟨some a, some b⟩))
      apply markerInv_setMarker
      exact markerInv_congr h rfl rfl
  | change t =>
      show MarkerInv (setMarker { s with inputValue := t }
        (getLatLngFromInput { s with inputValue := t }))
      apply markerInv_setMarker
      exact markerInv_congr h rfl rfl
  | setCoord arg =>
      simp only [stepEvent, setInputFromLatLng]
      apply markerInv_setMarker
      exact markerInv_congr h rfl rfl

theorem markerInv_foldl (l : List Event) (s : PickerState) (h : MarkerInv s) :
    MarkerInv (l.foldl stepEvent s) := by
  induction l generalizing s with
  | nil => exact h
  | cons e l ih => exact ih _ (markerInv_stepEvent h e)

theorem markerInv_run (cfg : Settings) (evs : List Event) : MarkerInv (run cfg evs) :=
  markerInv_foldl evs _ (markerInv_initPicker cfg)

theorem initState_viewCenter (iv : List Char) (dv : LatLng) (z : ℚ) :
    (initState iv dv z).viewCenter
      = some ((getLatLngFromInput (emptyState iv)).getD dv) := rfl

theorem initState_viewZoom (iv : List Char) (dv : LatLng) (z : ℚ) :
    (initState iv dv z).viewZoom = some z := rfl

theorem initState_inputValue (iv : List Char) (dv : LatLng) (z : ℚ) :
    (initState iv dv z).inputValue = iv := rfl

theorem initResolved_viewZoom (iv : List Char) (dv : LatLng) (z : ℚ) :
    (initResolved iv dv z).viewZoom = some z := by
  unfold initResolved
  cases h : getLatLngFromInput (emptyState iv) with
  | none => exact initState_viewZoom iv dv z
  | some c =>
      show (setMarker (initState iv dv z) (some c)).viewZoom = some z
      rw [setMarker_some_viewZoom, initState_viewZoom]

theorem initResolved_viewCenter (iv : List Char) (dv : LatLng) (z : ℚ) :
    (initResolved iv dv z).viewCenter
      = some ((getLatLngFromInput (emptyState iv)).getD dv) := by
  unfold initResolved
  cases h : getLatLngFromInput (emptyState iv) with
  | none =>
      rw [initState_viewCenter, h]
  | some c =>
      show (setMarker (initState iv dv z) (some c)).viewCenter
        = some ((some c).getD dv)
      rw [setMarker_some_viewCenter, initState_viewCenter, h]

theorem initResolved_inputValue (iv : List Char) (dv : LatLng) (z : ℚ) :
    (initResolved iv dv z).inputValue = iv := by
  unfold initResolved
  cases h : getLatLngFromInput (emptyState iv) with
  | none => exact initState_inputValue iv dv z
  | some c =>
      show (setMarker (initState iv dv z) (some c)).inputValue = iv
      rw [setMarker_some_inputValue, initState_inputValue]

theorem setInputFromLatLng_def (s : PickerState) (arg : LatLngArg) :
    setInputFromLatLng s arg
      = setMarker
          { s with inputValue := fmtArg arg, viewCenter := some (argToLatLng arg) }
          (some (argToLatLng arg)) := rfl

theorem clickHandler_def (s : PickerState) (a b : ℚ) :
    clickHandler s a b
      = setMarker { s with inputValue := fmtRat a ++ ',' :: fmtRat b }
          (some ⟨some a, some b⟩) := rfl

theorem changeHandler_def (s : PickerState) :
    changeHandler s = setMarker s (getLatLngFromInput s) := rfl

theorem stepEvent_click (s : PickerState) (a b : ℚ) :
    stepEvent s (Event.click a b) = clickHandler s a b := rfl

theorem stepEvent_change (s : PickerState) (t : List Char) :
    stepEvent s (Event.change t) = changeHandler { s with inputValue := t } := rfl

theorem stepEvent_setCoord (s : PickerState) (arg : LatLngArg) :
    stepEvent s (Event.setCoord arg) = setInputFromLatLng s arg := rfl

theorem getLatLng_fmt_pair (s : PickerState) {a b : ℚ}
    (hs : s.inputValue = fmtRat a ++ ',' :: fmtRat b) (ha : IsDec a) (hb : IsDec b) :
    getLatLngFromInput s = some ⟨some a, some b⟩ := by
  unfold getLatLngFromInput
  rw [hs, if_pos (by simp),
    splitOnComma_append (comma_not_mem_fmtRat a) (comma_not_mem_fmtRat b)]
  simp only [lLatLng]
  rw [parseJsNum_fmtRat ha, parseJsNum_fmtRat hb]

-- Concrete evaluations of the number model.
example : fmtRat (10 : ℚ) = ['1', '0'] := by decide
example : fmtRat (3 / 2 : ℚ) = ['1', '.', '5'] := by decide
example : fmtRat (-5 / 2 : ℚ) = ['-', '2', '.', '5'] := by decide
example : parseJsNum ['1', '.', '5'] = some (3 / 2 : ℚ) := by decide
example : parseJsNum ['a'] = none := by decide
example : parseJsNum [] = some 0 := by decide
example : splitOnComma ['1', ',', '2'] = [['1'], ['2']] := by decide
example : IsDec (47.4953 : ℚ) := by decide
example : fmtRat (47.4953 : ℚ) = ['4', '7', '.', '4', '9', '5', '3'] := by decide

/-! ## Claim theorems -/

/-- Claim C1, counterexample: the claim states that a change notification on
unparseable text always transitions the marker state to `NoMarker`.  It is
false: for the two-component unparseable text `"a,b"` the split succeeds and
the coordinate constructor produces a degenerate NaN coordinate, so the
change listener still places a marker (here: after constructing with empty
input and clicking at (1, 2), setting the text to `"a,b"` and raising a
change leaves one marker displayed, at the degenerate coordinate). -/
theorem C1_counterexample :
    (run ⟨[], none, none⟩ [Event.click 1 2, Event.change ['a', ',', 'b']]).layers
      = [⟨1, ⟨none, none⟩⟩] := by decide

/-- Claim C1, amended: when the input element's text is set to the empty
string and a change notification is raised, the state transitions to
`NoMarker` (no marker layer remains displayed) regardless of the prior
reachable state; unparseable two-component text instead yields a degenerate
coordinate at which a marker is still placed. -/
theorem C1_empty_change (cfg : Settings) (evs : List Event) :
    (stepEvent (run cfg evs) (Event.change [])).layers = [] := by
  rw [stepEvent_change, changeHandler_def]
  have hget : getLatLngFromInput { run cfg evs with inputValue := ([] : List Char) }
      = none := by
    unfold getLatLngFromInput
    simp
  rw [hget, setMarker_none]
  exact removeOwned_layers (markerInv_congr (markerInv_run cfg evs) rfl rfl)

/-- Claim C2: for every well-formed coordinate (both components
decimal-representable, in either accepted shape), calling
`setInputFromLatLng` and re-parsing the input element's text with
`_getLatLngFromInput` yields exactly the same coordinate. -/
theorem C2_roundtrip (s : PickerState) (a b : ℚ) (ha : IsDec a) (hb : IsDec b) :
    getLatLngFromInput (setInputFromLatLng s (LatLngArg.arr a b))
        = some ⟨some a, some b⟩ ∧
    getLatLngFromInput (setInputFromLatLng s (LatLngArg.obj a b))
        = some ⟨some a, some b⟩ := by
  constructor <;>
  · rw [setInputFromLatLng_def]
    exact getLatLng_fmt_pair _ (by rw [setMarker_some_inputValue]; rfl) ha hb

/-- Claim C2, witness: the round-trip at the concrete coordinate
`[1.5, -2.5]` of Scenario E. -/
theorem C2_roundtrip_witness :
    IsDec (3 / 2 : ℚ) ∧ IsDec (-5 / 2 : ℚ) ∧
    getLatLngFromInput
        (setInputFromLatLng (emptyState []) (LatLngArg.arr (3 / 2 : ℚ) (-5 / 2 : ℚ)))
      = some ⟨some (3 / 2 : ℚ), some (-5 / 2 : ℚ)⟩ :=
  ⟨by decide, by decide,
    (C2_roundtrip (emptyState []) (3 / 2) (-5 / 2) (by decide) (by decide)).1⟩

/-- Claim C3: for text consisting of two comma-free numerically-parseable
components around a single comma, the split yields exactly those two
components and `_getLatLngFromInput` returns the coordinate of their parsed
numeric values. -/
theorem C3_parse_two (s : PickerState) (a b : List Char) (x y : ℚ)
    (hca : ',' ∉ a) (hcb : ',' ∉ b)
    (hx : parseJsNum a = some x) (hy : parseJsNum b = some y)
    (hs : s.inputValue = a ++ ',' :: b) :
    splitOnComma s.inputValue = [a, b] ∧
    getLatLngFromInput s = some ⟨some x, some y⟩ := by
  have hsplit := splitOnComma_append hca hcb
  constructor
  · rw [hs]
    exact hsplit
  · unfold getLatLngFromInput
    rw [hs, if_pos (by simp), hsplit]
    simp only [lLatLng]
    rw [hx, hy]

/-- Claim C3, witness: the text `"1,2"` splits into `["1", "2"]` and parses
to the coordinate (1, 2). -/
theorem C3_parse_two_witness :
    (',' ∉ (['1'] : List Char)) ∧ (',' ∉ (['2'] : List Char)) ∧
    parseJsNum ['1'] = some 1 ∧ parseJsNum ['2'] = some 2 ∧
    splitOnComma (emptyState ['1', ',', '2']).inputValue = [['1'], ['2']] ∧
    getLatLngFromInput (emptyState ['1', ',', '2']) = some ⟨some 1, some 2⟩ := by
  have h := C3_parse_two (emptyState ['1', ',', '2']) ['1'] ['2'] 1 2
    (by decide) (by decide) (by decide) (by decide) rfl
  exact ⟨by decide, by decide, by decide, by decide, h.1, h.2⟩

/-- Claim C4: with empty starting text, `_getLatLngFromInput` yields null
and construction leaves the instance with no marker, the view centred on
the configured default coordinate at the configured default zoom. -/
theorem C4_empty_construct (cfg : Settings) (h : cfg.initialValue = []) :
    getLatLngFromInput (initPicker cfg) = none ∧
    (initPicker cfg).layers = [] ∧
    (initPicker cfg).marker = none ∧
    (initPicker cfg).viewCenter = some (jsOrLatLng cfg.defaultViewLatLng defaultLatLng) ∧
    (initPicker cfg).viewZoom = some (jsOrZoom cfg.defaultViewZoom 14) := by
  obtain ⟨iv, c, z⟩ := cfg
  simp only at h
  subst h
  exact ⟨rfl, rfl, rfl, rfl, rfl⟩

/-- Claim C4, witness: Scenario A — constructing with empty input and no
`defaultView` settings gives no marker, centre (47.4953, 19.0645), zoom 14. -/
theorem C4_empty_construct_witness :
    (⟨[], none, none⟩ : Settings).initialValue = [] ∧
    getLatLngFromInput (initPicker ⟨[], none, none⟩) = none ∧
    (initPicker ⟨[], none, none⟩).layers = [] ∧
    (initPicker ⟨[], none, none⟩).viewCenter
      = some ⟨some (47.4953 : ℚ), some (19.0645 : ℚ)⟩ ∧
    (initPicker ⟨[], none, none⟩).viewZoom = some 14 := by
  have h := C4_empty_construct ⟨[], none, none⟩ rfl
  refine ⟨rfl, h.1, h.2.1, ?_, ?_⟩
  · rw [h.2.2.2.1]
    rfl
  · rw [h.2.2.2.2]
    rfl

/-- Claim C5: a map click at (lat, lng) writes the formatted `"lat,lng"`
text into the input element, leaves exactly one marker displayed at that
coordinate (replacing any existing one), and leaves the view centre and
zoom unchanged; at (10, 20) the text is precisely `"10,20"`. -/
theorem C5_click (cfg : Settings) (evs : List Event) (a b : ℚ) :
    (stepEvent (run cfg evs) (Event.click a b)).inputValue
        = fmtRat a ++ ',' :: fmtRat b ∧
    (stepEvent (run cfg evs) (Event.click a b)).layers.map Marker.pos
        = [⟨some a, some b⟩] ∧
    (stepEvent (run cfg evs) (Event.click a b)).viewCenter = (run cfg evs).viewCenter ∧
    (stepEvent (run cfg evs) (Event.click a b)).viewZoom = (run cfg evs).viewZoom ∧
    fmtRat (10 : ℚ) ++ ',' :: fmtRat (20 : ℚ) = ['1', '0', ',', '2', '0'] := by
  have hinv : MarkerInv { run cfg evs with inputValue := fmtRat a ++ ',' :: fmtRat b } :=
    markerInv_congr (markerInv_run cfg evs) rfl rfl
  rw [stepEvent_click, clickHandler_def]
  refine ⟨?_, ?_, ?_, ?_, by decide⟩
  · rw [setMarker_some_inputValue]
  · rw [setMarker_some_layers hinv]
    rfl
  · rw [setMarker_some_viewCenter]
  · rw [setMarker_some_viewZoom]

/-- Claim C6: `setInputFromLatLng` writes the formatted `"lat,lng"` text
into the input element, recenters the view on the coordinate while keeping
the zoom, and leaves exactly one marker displayed there (replacing any
existing one); the array and object argument shapes produce identical
states, and Scenario E's `[1.5, -2.5]` produces the text `"1.5,-2.5"`. -/
theorem C6_setFromCoordinate (cfg : Settings) (evs : List Event) (arg : LatLngArg) :
    (stepEvent (run cfg evs) (Event.setCoord arg)).inputValue = fmtArg arg ∧
    (stepEvent (run cfg evs) (Event.setCoord arg)).viewCenter
        = some (argToLatLng arg) ∧
    (stepEvent (run cfg evs) (Event.setCoord arg)).viewZoom = (run cfg evs).viewZoom ∧
    (stepEvent (run cfg evs) (Event.setCoord arg)).layers.map Marker.pos
        = [argToLatLng arg] ∧
    (∀ (x y : ℚ) (t : PickerState),
      setInputFromLatLng t (LatLngArg.arr x y) = setInputFromLatLng t (LatLngArg.obj x y)) ∧
    fmtArg (LatLngArg.arr (3 / 2 : ℚ) (-5 / 2 : ℚ))
        = ['1', '.', '5', ',', '-', '2', '.', '5'] ∧
    argToLatLng (LatLngArg.arr (3 / 2 : ℚ) (-5 / 2 : ℚ))
        = ⟨some (3 / 2 : ℚ), some (-5 / 2 : ℚ)⟩ := by
  have hinv : MarkerInv
      { run cfg evs with inputValue := fmtArg arg, viewCenter := some (argToLatLng arg) } :=
    markerInv_congr (markerInv_run cfg evs) rfl rfl
  rw [stepEvent_setCoord, setInputFromLatLng_def]
  refine ⟨?_, ?_, ?_, ?_, fun x y t => rfl, by decide, rfl⟩
  · rw [setMarker_some_inputValue]
  · rw [setMarker_some_viewCenter]
  · rw [setMarker_some_viewZoom]
  · rw [setMarker_some_layers hinv]
    rfl

/-- Claim C7: in every state reachable from construction by any sequence of
map clicks, input changes and `setInputFromLatLng` calls, the instance
displays at most one marker. -/
theorem C7_single_marker (cfg : Settings) (evs : List Event) :
    (run cfg evs).layers.length ≤ 1 := by
  rcases markerInv_run cfg evs with h | ⟨m, hm, hl⟩
  · simp [h]
  · simp [hl]

/-- Claim C8: invoking `_setMarker` twice in succession with the same
coordinate on a reachable state leaves exactly one marker displayed at that
coordinate, with all observable state equal to that after a single call;
internally the second call removes the first call's marker layer and adds a
fresh one (`_marker` differs). -/
theorem C8_setMarker_idem (cfg : Settings) (evs : List Event) (c : LatLng) :
    (setMarker (setMarker (run cfg evs) (some c)) (some c)).layers.map Marker.pos
        = [c] ∧
    (setMarker (run cfg evs) (some c)).layers.map Marker.pos = [c] ∧
    (setMarker (setMarker (run cfg evs) (some c)) (some c)).inputValue
        = (setMarker (run cfg evs) (some c)).inputValue ∧
    (setMarker (setMarker (run cfg evs) (some c)) (some c)).viewCenter
        = (setMarker (run cfg evs) (some c)).viewCenter ∧
    (setMarker (setMarker (run cfg evs) (some c)) (some c)).viewZoom
        = (setMarker (run cfg evs) (some c)).viewZoom ∧
    (setMarker (setMarker (run cfg evs) (some c)) (some c)).marker
        ≠ (setMarker (run cfg evs) (some c)).marker := by
  have hinv := markerInv_run cfg evs
  have hinv1 := markerInv_setMarker hinv (some c)
  refine ⟨?_, ?_, ?_, ?_, ?_, ?_⟩
  · rw [setMarker_some_layers hinv1]
    rfl
  · rw [setMarker_some_layers hinv]
    rfl
  · rw [setMarker_some_inputValue]
  · rw [setMarker_some_viewCenter]
  · rw [setMarker_some_viewZoom]
  · rw [setMarker_some_marker, setMarker_some_marker, setMarker_some_nextId]
    simp

/-- Claim C9, counterexample: the claim states `_setMarker` is never invoked
with null.  It is false: the change listener passes the result of
`_getLatLngFromInput` to `_setMarker` unconditionally, so after constructing
with text `"1,2"` (which places a marker) and raising a change notification
with the text cleared, the executed step is literally `_setMarker(null)`. -/
theorem C9_counterexample :
    stepEvent (initPicker ⟨['1', ',', '2'], none, none⟩) (Event.change [])
      = setMarker { initPicker ⟨['1', ',', '2'], none, none⟩ with inputValue := [] } none ∧
    getLatLngFromInput
        { initPicker ⟨['1', ',', '2'], none, none⟩ with inputValue := [] } = none ∧
    (initPicker ⟨['1', ',', '2'], none, none⟩).marker ≠ none := by
  have hget : getLatLngFromInput
      { initPicker ⟨['1', ',', '2'], none, none⟩ with inputValue := [] } = none := by
    decide
  refine ⟨?_, hget, by decide⟩
  rw [stepEvent_change, changeHandler_def, hget]

/-- Claim C9, amended: the change listener invokes `_setMarker` with the
parse result unconditionally, so `_setMarker` is invoked with null whenever
the input parses to null (for instance empty text); only the construction
path realizes "no marker" by not calling it.  A null invocation still runs
the removal branch, so no marker remains displayed. -/
theorem C9_change_null_call (cfg : Settings) (evs : List Event) :
    stepEvent (run cfg evs) (Event.change [])
      = setMarker { run cfg evs with inputValue := [] }
          (getLatLngFromInput { run cfg evs with inputValue := [] }) ∧
    getLatLngFromInput { run cfg evs with inputValue := [] } = none ∧
    (setMarker { run cfg evs with inputValue := [] } none).layers = [] := by
  refine ⟨rfl, ?_, ?_⟩
  · unfold getLatLngFromInput
    simp
  · rw [setMarker_none]
    exact removeOwned_layers (markerInv_congr (markerInv_run cfg evs) rfl rfl)

/-- Claim C10: the `defaultView` fallbacks are applied by JS falsiness, not
absence: a supplied zoom of `0` (falsy) and a supplied falsy coordinate are
replaced by the fallbacks (zoom 14, coordinate (47.4953, 19.0645)) exactly
as if they had been omitted. -/
theorem C10_falsy_defaults (iv : List Char) (c : Option (Option LatLng)) (z : Option ℚ) :
    initPicker ⟨iv, c, some 0⟩ = initPicker ⟨iv, c, none⟩ ∧
    initPicker ⟨iv, some none, z⟩ = initPicker ⟨iv, none, z⟩ ∧
    (initPicker ⟨iv, c, some 0⟩).viewZoom = some 14 ∧
    jsOrLatLng (some none) defaultLatLng = defaultLatLng := by
  have hz : jsOrZoom (some 0) 14 = jsOrZoom none 14 := by
    simp [jsOrZoom]
  refine ⟨?_, rfl, ?_, rfl⟩
  · simp only [initPicker]
    rw [hz]
  · simp only [initPicker]
    rw [initResolved_viewZoom]
    simp [jsOrZoom]
